import Mathlib

/-!
Verification of the expense ledger and query engine of the
Personal-Expense-Tracker repository (src/expense_tracker.py).

Shallow embedding conventions:
* Python strings are `List Char` (`Str`); `str.lower()` is a character-wise
  `Char.toLower` map; `in` (substring test) is an explicit recursive scan.
* Monetary amounts (Python floats holding decimal money values) are `ℤ`.
* The stored ISO `YYYY-MM-DD` date string is represented structurally by the
  `Date` record; `datetime.strptime(d, "%Y-%m-%d").year/.month` become the
  `year`/`month` projections and `strftime` is the identity on the record.
* Python dicts keyed by strings are association lists with unique keys;
  lookup, insertion-order-preserving update, and append-on-new-key mirror
  dict semantics.
* Methods of `ExpenseTracker` that mutate `self` become functions on an
  explicit `TrackerState`; the per-user JSON files are part of that state so
  that persistence (`save_expenses` / `load_expenses` / `save_budgets`) is
  observable.  `json.load` raising on a corrupt file is the `malformed`
  constructor, and `Except` models the propagated Python exception.
* Python truthiness in `filter_expenses` (`if year:` etc.) is modelled
  exactly: a `some 0` year/month or a `some []` category/payment string
  behaves like an absent argument.
-/

abbrev Str := List Char

/-- Calendar date as stored in the `date` field (ISO `YYYY-MM-DD`). -/
structure Date where
  year : Nat
  month : Nat
  day : Nat
deriving DecidableEq

/-- The `Expense` class: fields as in `Expense.__init__`. -/
structure Expense where
  amount : ℤ
  category : Str
  description : Str
  date : Date
  payment_method : Str
  currency : Str
deriving DecidableEq

/-- The JSON object written by `Expense.to_dict` (same six keys). -/
structure ExpenseDict where
  amount : ℤ
  category : Str
  description : Str
  date : Date
  payment_method : Str
  currency : Str
deriving DecidableEq

/-- `Expense.to_dict`. -/
def to_dict (e : Expense) : ExpenseDict :=
  ⟨e.amount, e.category, e.description, e.date, e.payment_method, e.currency⟩

/-- `Expense(**e)`: rebuilding an `Expense` from a loaded JSON object. -/
def expense_of_dict (d : ExpenseDict) : Expense :=
  ⟨d.amount, d.category, d.description, d.date, d.payment_method, d.currency⟩

/-- Contents of the per-user `<username>_expenses.json` file. -/
inductive FileData where
  | absent
  | malformed
  | stored (records : List ExpenseDict)
deriving DecidableEq

/-- Contents of the per-user `<username>_budgets.json` file. -/
inductive BudgetFile where
  | absent
  | malformed
  | stored (entries : List (Str × ℤ))
deriving DecidableEq

/-- The mutable state of an `ExpenseTracker` instance together with its two
persistence files. -/
structure TrackerState where
  expenses : List Expense
  budgets : List (Str × ℤ)
  expenseFile : FileData
  budgetFile : BudgetFile
deriving DecidableEq

/-- Python dict lookup (`d[k]` / `k in d`), as an association-list scan. -/
def alistFind : List (Str × ℤ) → Str → Option ℤ
  | [], _ => none
  | (k, v) :: t, c => if k = c then some v else alistFind t c

/-- Python dict assignment `d[k] = v`: replaces in place, appends if new. -/
def dictSet : List (Str × ℤ) → Str → ℤ → List (Str × ℤ)
  | [], k, v => [(k, v)]
  | (k1, v1) :: t, k, v => if k1 = k then (k1, v) :: t else (k1, v1) :: dictSet t k v

/-- `summary[cat] = summary.get(cat, 0) + amount` (dict read-modify-write). -/
def bumpKey : List (Str × ℤ) → Str → ℤ → List (Str × ℤ)
  | [], k, a => [(k, a)]
  | (k1, v) :: t, k, a => if k1 = k then (k1, v + a) :: t else (k1, v) :: bumpKey t k a

/-- `str.lower()` character by character. -/
def lowerStr (s : Str) : Str := s.map Char.toLower

/-- Does `hay` begin with `needle`?  (Helper for the substring scan.) -/
def strStarts : Str → Str → Bool
  | _, [] => true
  | [], _ :: _ => false
  | a :: as, b :: bs => a == b && strStarts as bs

/-- Python `needle in hay` on strings: `needle` occurs contiguously in `hay`. -/
def strHas : Str → Str → Bool
  | [], needle => needle.isEmpty
  | a :: t, needle => strStarts (a :: t) needle || strHas t needle

/-- Lexicographic `<=` on dates; for well-formed ISO dates this is exactly the
string comparison `start_date <= exp.date` used by `filter_by_date_range`. -/
def dateLe (a b : Date) : Bool :=
  decide (a.year < b.year) ||
    (decide (a.year = b.year) && (decide (a.month < b.month) ||
      (decide (a.month = b.month) && decide (a.day ≤ b.day))))

/-- `ExpenseTracker.filter_expenses`: conjunctive filter where each predicate
is applied only when its argument is truthy (Python `if year:` etc.). -/
def filter_expenses (es : List Expense) (year month : Option Nat)
    (category payment_method : Option Str) : List Expense :=
  let f1 := match year with
    | some y => if y = 0 then es else es.filter (fun e => decide (e.date.year = y))
    | none => es
  let f2 := match month with
    | some m => if m = 0 then f1 else f1.filter (fun e => decide (e.date.month = m))
    | none => f1
  let f3 := match category with
    | some c => if c = [] then f2 else f2.filter (fun e => decide (e.category = c))
    | none => f2
  match payment_method with
    | some p => if p = [] then f3 else f3.filter (fun e => decide (e.payment_method = p))
    | none => f3

/-- `ExpenseTracker.get_summary`: per-category totals of the filtered list,
built in first-seen key order. -/
def get_summary (es : List Expense) (year month : Option Nat) : List (Str × ℤ) :=
  (filter_expenses es year month none none).foldl
    (fun s e => bumpKey s e.category e.amount) []

/-- `ExpenseTracker.search_expenses`. -/
def search_expenses (es : List Expense) (keyword : Str) : List Expense :=
  es.filter (fun e =>
    strHas (lowerStr e.description) (lowerStr keyword) ||
    strHas (lowerStr e.category) (lowerStr keyword))

/-- `ExpenseTracker.filter_by_category`. -/
def filter_by_category (es : List Expense) (category : Str) : List Expense :=
  es.filter (fun e => decide (lowerStr e.category = lowerStr category))

/-- `ExpenseTracker.filter_by_date_range`. -/
def filter_by_date_range (es : List Expense) (start_date end_date : Date) :
    List Expense :=
  es.filter (fun e => dateLe start_date e.date && dateLe e.date end_date)

/-- The record-level match used by `delete_expense` (all four fields equal). -/
def delMatch (d : Date) (c : Str) (a : ℤ) (dsc : Str) (e : Expense) : Prop :=
  e.date = d ∧ e.category = c ∧ e.amount = a ∧ e.description = dsc

instance (d c a dsc) : DecidablePred (delMatch d c a dsc) := fun e => by
  unfold delMatch; infer_instance

/-- The pure ledger part of `ExpenseTracker.delete_expense` (the list
comprehension keeping the non-matching records). -/
def delete_expense_list (es : List Expense) (d : Date) (c : Str) (a : ℤ)
    (dsc : Str) : List Expense :=
  es.filter (fun e => decide (¬ delMatch d c a dsc e))

/-- `ExpenseTracker.save_expenses`: overwrite the file with the serialized
in-memory sequence. -/
def save_expenses (s : TrackerState) : TrackerState :=
  { s with expenseFile := .stored (s.expenses.map to_dict) }

/-- One possible outcome of `json.load`: the exception it raises on a
corrupt file, propagated to the caller. -/
inductive LoadErr where
  | malformed
deriving DecidableEq

/-- `ExpenseTracker.load_expenses`: absent file is skipped (current list kept),
a corrupt file raises, otherwise the parsed records replace the list. -/
def load_expenses (s : TrackerState) : Except LoadErr TrackerState :=
  match s.expenseFile with
  | .absent => .ok s
  | .malformed => .error .malformed
  | .stored recs => .ok { s with expenses := recs.map expense_of_dict }

/-- `ExpenseTracker.__init__`: start from an empty ledger and empty budget
map, then run `load_expenses` and `load_budgets` against the user's files. -/
def init_tracker (ef : FileData) (bf : BudgetFile) : Except LoadErr TrackerState :=
  match ef with
  | .malformed => .error .malformed
  | .absent =>
    match bf with
    | .malformed => .error .malformed
    | .absent => .ok ⟨[], [], ef, bf⟩
    | .stored b => .ok ⟨[], b, ef, bf⟩
  | .stored recs =>
    match bf with
    | .malformed => .error .malformed
    | .absent => .ok ⟨recs.map expense_of_dict, [], ef, bf⟩
    | .stored b => .ok ⟨recs.map expense_of_dict, b, ef, bf⟩

/-- `ExpenseTracker.check_budget`: if the category has a ceiling, sum the
amounts of `filter_expenses(month=datetime.now().month, category=category)`
(note: no year argument) and warn iff the sum strictly exceeds the ceiling.
Returns whether the budget-alert message box fires. -/
def check_budget (now : Date) (es : List Expense) (budgets : List (Str × ℤ))
    (e : Expense) : Bool :=
  match alistFind budgets e.category with
  | none => false
  | some ceiling =>
    let spent := ((filter_expenses es none (some now.month) (some e.category)
      none).map (fun x => x.amount)).sum
    decide (ceiling < spent)

/-- `ExpenseTracker.add_expense`: append, persist, then run the budget check
over the updated ledger.  The `Bool` is the budget-alert notification. -/
def add_expense (now : Date) (s : TrackerState) (e : Expense) :
    TrackerState × Bool :=
  let s1 := save_expenses { s with expenses := s.expenses ++ [e] }
  (s1, check_budget now s1.expenses s1.budgets e)

/-- `ExpenseTracker.delete_expense` on the full state (filter then persist). -/
def delete_expense (s : TrackerState) (d : Date) (c : Str) (a : ℤ)
    (dsc : Str) : TrackerState :=
  save_expenses { s with expenses := delete_expense_list s.expenses d c a dsc }

/-- `ExpenseTracker.set_budget`: upsert the ceiling and persist the map. -/
def set_budget (s : TrackerState) (c : Str) (a : ℤ) : TrackerState :=
  let b := dictSet s.budgets c a
  { s with budgets := b, budgetFile := .stored b }

/-- Gregorian leap-year rule (as implemented by Python `datetime`). -/
def isLeap (y : Nat) : Bool :=
  y % 4 == 0 && (y % 100 != 0 || y % 400 == 0)

/-- Number of days in a month (Python `datetime` validity bound). -/
def daysInMonth (y m : Nat) : Nat :=
  if m = 2 then (if isLeap y then 29 else 28)
  else if m = 4 ∨ m = 6 ∨ m = 9 ∨ m = 11 then 30 else 31

/-- `datetime.replace(year=y, month=m, day=d)`: yields the date when the
components form a real calendar date, otherwise raises `ValueError`
(modelled as `none`). -/
def mkValidDate (y m d : Nat) : Option Date :=
  if 1 ≤ m ∧ m ≤ 12 ∧ 1 ≤ d ∧ d ≤ daysInMonth y m then some ⟨y, m, d⟩ else none

/-- Default strings from `Expense.__init__`. -/
def cashStr : Str := ['C', 'a', 's', 'h']

def inrStr : Str := ['I', 'N', 'R']

/-- `ExpenseTracker.add_recurring_expense`: pick this month's `day_of_month`
if `today.day <= day_of_month`, else `day_of_month` of `today.month % 12 + 1`
(bumping the year when that wraps to January), then do a normal `add` of an
`Expense` with the default payment method and currency.  `none` models the
`ValueError` that `datetime.replace` raises on a non-existent day. -/
def add_recurring_expense (now : Date) (s : TrackerState) (amount : ℤ)
    (category description : Str) (day_of_month : Nat) :
    Option (TrackerState × Bool) :=
  let target :=
    if now.day ≤ day_of_month then
      mkValidDate now.year now.month day_of_month
    else
      let nm := now.month % 12 + 1
      let ny := now.year + (if nm = 1 then 1 else 0)
      mkValidDate ny nm day_of_month
  match target with
  | none => none
  | some t =>
    some (add_expense now s ⟨amount, category, description, t, cashStr, inrStr⟩)

/-- `ExpenseTracker.convert_currency`.  The external rate service is the
function `svc`: `svc from = none` models any request/parse failure inside the
`try` block, and a missing target key in the returned `rates` mapping is the
`KeyError` caught by the same handler.  Python returns `None` after showing
the error box; that reported failure is `none`. -/
def convert_currency (amount : ℤ) (from_currency to_currency : Str)
    (svc : Str → Option (List (Str × ℤ))) : Option ℤ :=
  if from_currency = to_currency then some amount
  else
    match svc from_currency with
    | none => none
    | some rates =>
      match alistFind rates to_currency with
      | none => none
      | some rate => some (amount * rate)

/-!  The read-only methods, written as state transformers (`self` in, `self`
out) so that their effect on the tracker state is part of the statement. -/

/-- `get_summary` as a method on the tracker state. -/
def get_summary_op (s : TrackerState) (year month : Option Nat) :
    TrackerState × List (Str × ℤ) :=
  (s, get_summary s.expenses year month)

/-- `search_expenses` as a method on the tracker state. -/
def search_expenses_op (s : TrackerState) (keyword : Str) :
    TrackerState × List Expense :=
  (s, search_expenses s.expenses keyword)

/-- `filter_by_category` as a method on the tracker state. -/
def filter_by_category_op (s : TrackerState) (category : Str) :
    TrackerState × List Expense :=
  (s, filter_by_category s.expenses category)

/-- `filter_by_date_range` as a method on the tracker state. -/
def filter_by_date_range_op (s : TrackerState) (start_date end_date : Date) :
    TrackerState × List Expense :=
  (s, filter_by_date_range s.expenses start_date end_date)

/-- `filter_expenses` as a method on the tracker state. -/
def filter_expenses_op (s : TrackerState) (year month : Option Nat)
    (category payment_method : Option Str) : TrackerState × List Expense :=
  (s, filter_expenses s.expenses year month category payment_method)

/-!  Specification-side notions, written from the spec's words, used to state
the claims against the code-level definitions above. -/

/-- `needle` occurs contiguously (as a substring) in `hay`. -/
def Occurs (needle hay : Str) : Prop :=
  ∃ p q, hay = p ++ needle ++ q

/-- Total amount spent on category `c` within a list of records. -/
def catTotal (es : List Expense) (c : Str) : ℤ :=
  ((es.filter (fun e => decide (e.category = c))).map (fun e => e.amount)).sum

/-- The target date a recurring expense should get, in the claim's words:
`dayOfMonth` of the current month and year when `dayOfMonth` is at least
today's day of month, else `dayOfMonth` of the following month, with the year
incremented exactly when the current month is December. -/
def claimTarget (now : Date) (day_of_month : Nat) : Date :=
  if now.day ≤ day_of_month then ⟨now.year, now.month, day_of_month⟩
  else if now.month = 12 then ⟨now.year + 1, 1, day_of_month⟩
  else ⟨now.year, now.month + 1, day_of_month⟩

/-!  Concrete sample data used by counterexamples and witnesses. -/

/-- "USD". -/
def usdStr : Str := ['U', 'S', 'D']

/-- A concrete rate service knowing only USD, with an INR rate of 83. -/
def svc0 : Str → Option (List (Str × ℤ)) :=
  fun s => if s = usdStr then some [(inrStr, 83)] else none

/-- A record whose stored category is `"Food"` (mixed case). -/
def foodExp : Expense :=
  ⟨250, ['F', 'o', 'o', 'd'], ['l', 'u', 'n', 'c', 'h'], ⟨2025, 10, 1⟩,
    cashStr, inrStr⟩

/-- `"food"`, the all-lower-case query string. -/
def lowFood : Str := ['f', 'o', 'o', 'd']

/-- `"foo"`. -/
def fooStr : Str := ['f', 'o', 'o']

/-- A fresh tracker state (empty ledger, synced empty file). -/
def st0 : TrackerState := ⟨[], [], .stored [], .absent⟩

/-- Current date used in the budget counterexample. -/
def nowC1 : Date := ⟨2025, 10, 5⟩

/-- An old record: category `"A"`, amount 10, dated October of 2024. -/
def oldExp : Expense := ⟨10, ['A'], [], ⟨2024, 10, 1⟩, cashStr, inrStr⟩

/-- The record being added: category `"A"`, amount 5, October 2025. -/
def newExp : Expense := ⟨5, ['A'], [], ⟨2025, 10, 5⟩, cashStr, inrStr⟩

/-- Tracker holding `oldExp` with a ceiling of 10 on category `"A"`. -/
def stC1 : TrackerState :=
  ⟨[oldExp], [(['A'], 10)], .stored [to_dict oldExp], .stored [(['A'], 10)]⟩

/-- The sum the claim describes for the budget rule: amounts of records in
the given category dated in the current calendar month of the current year. -/
def claimMonthSum (now : Date) (es : List Expense) (c : Str) : ℤ :=
  ((es.filter (fun e =>
    decide (e.category = c ∧ e.date.year = now.year ∧ e.date.month = now.month))).map
      (fun e => e.amount)).sum

/-!  Helper lemmas. -/

theorem expense_of_to_dict (e : Expense) : expense_of_dict (to_dict e) = e := rfl

theorem map_of_to (l : List Expense) :
    l.map (expense_of_dict ∘ to_dict) = l := by
  induction l with
  | nil => rfl
  | cons x t ih => simp only [List.map_cons, Function.comp, ih, expense_of_to_dict]

theorem filter_idem (p : Expense → Bool) (l : List Expense) :
    (l.filter p).filter p = l.filter p := by
  induction l with
  | nil => rfl
  | cons a t ih => by_cases h : p a <;> simp [List.filter_cons, h, ih]

/-- C5: `delete_expense` removes exactly the records whose date, category,
amount and description all equal the given values — all of them — keeps the
remaining records in their relative order, is a no-op on the record sequence
when nothing matches, and is idempotent. -/
theorem delete_exact_match (s : TrackerState) (d : Date) (c : Str) (a : ℤ)
    (dsc : Str) :
    ((delete_expense s d c a dsc).expenses).Sublist s.expenses
    ∧ (∀ e, e ∈ (delete_expense s d c a dsc).expenses ↔
        e ∈ s.expenses ∧ ¬ delMatch d c a dsc e)
    ∧ (∀ e, ((delete_expense s d c a dsc).expenses).count e =
        if delMatch d c a dsc e then 0 else s.expenses.count e)
    ∧ delete_expense (delete_expense s d c a dsc) d c a dsc =
        delete_expense s d c a dsc
    ∧ ((∀ e ∈ s.expenses, ¬ delMatch d c a dsc e) →
        (delete_expense s d c a dsc).expenses = s.expenses) := by
  refine ⟨?_, ?_, ?_, ?_, ?_⟩
  · exact List.filter_sublist s.expenses
  · intro e
    simp [delete_expense, save_expenses, delete_expense_list, List.mem_filter]
  · intro e
    by_cases h : delMatch d c a dsc e
    · simp only [delete_expense, save_expenses, delete_expense_list, h,
        if_true]
      refine List.count_eq_zero.mpr ?_
      simp [List.mem_filter, h]
    · simp only [delete_expense, save_expenses, delete_expense_list, h,
        if_false]
      refine List.count_filter ?_
      simp [h]
  · simp [delete_expense, save_expenses, delete_expense_list, filter_idem]
  · intro h
    simp only [delete_expense, save_expenses, delete_expense_list]
    refine List.filter_eq_self.mpr ?_
    intro e he
    simpa using h e he

/-- Closed witness for C5: deleting a tuple absent from a fresh tracker
leaves the record sequence unchanged. -/
theorem delete_exact_match_w :
    (delete_expense st0 nowC1 ['A'] 10 []).expenses = st0.expenses :=
  (delete_exact_match st0 nowC1 ['A'] 10 []).2.2.2.2 (by decide)

/-- C6: after `add_expense` the in-memory sequence is the old one followed by
the new record, and reloading from the just-persisted file restores exactly
the same tracker state (save followed by load is the identity). -/
theorem add_then_reload_roundtrip (now : Date) (s : TrackerState)
    (e : Expense) :
    (add_expense now s e).1.expenses = s.expenses ++ [e]
    ∧ load_expenses (add_expense now s e).1 = .ok (add_expense now s e).1 := by
  constructor
  · rfl
  · simp [add_expense, save_expenses, load_expenses, List.map_map,
      map_of_to, expense_of_to_dict]

/-- C7: currency conversion is the identity when the two currencies are equal
— for every rate service, including the one that always fails, so the
external service is never consulted — and otherwise multiplies by the
service's rate for the target currency; every lookup failure (failed request
or missing target key) yields the reported-failure result `none`, which is
neither `some 0` nor the unchanged amount. -/
theorem convert_currency_spec (a r : ℤ) (f t : Str)
    (rates : List (Str × ℤ)) (svc : Str → Option (List (Str × ℤ))) :
    (convert_currency a f f svc = some a)
    ∧ (f ≠ t → svc f = none →
        convert_currency a f t svc = none
        ∧ convert_currency a f t svc ≠ some 0
        ∧ convert_currency a f t svc ≠ some a)
    ∧ (f ≠ t → svc f = some rates → alistFind rates t = none →
        convert_currency a f t svc = none
        ∧ convert_currency a f t svc ≠ some 0
        ∧ convert_currency a f t svc ≠ some a)
    ∧ (f ≠ t → svc f = some rates → alistFind rates t = some r →
        convert_currency a f t svc = some (a * r)) := by
  refine ⟨?_, ?_, ?_, ?_⟩
  · simp [convert_currency]
  · intro hft hsvc
    simp [convert_currency, hft, hsvc]
  · intro hft hsvc hrate
    simp [convert_currency, hft, hsvc, hrate]
  · intro hft hsvc hrate
    simp [convert_currency, hft, hsvc, hrate]

/-- Closed witness for C7: with the concrete service `svc0`,
`convert_currency 100 USD USD` is exactly 100 and
`convert_currency 100 USD INR` multiplies by the looked-up rate 83. -/
theorem convert_currency_spec_w :
    convert_currency 100 usdStr usdStr svc0 = some 100
    ∧ convert_currency 100 usdStr inrStr svc0 = some 8300 :=
  ⟨(convert_currency_spec 100 83 usdStr inrStr [(inrStr, 83)] svc0).1,
   (convert_currency_spec 100 83 usdStr inrStr [(inrStr, 83)] svc0).2.2.2
     (by decide) (by decide) (by decide)⟩

/-- C9: constructing a tracker with an absent record file yields the empty
ledger (absence is not an error), while a malformed record file is a fatal,
propagated load error — never an empty or partial ledger. -/
theorem load_absent_empty_malformed_fatal :
    init_tracker .absent .absent = .ok ⟨[], [], .absent, .absent⟩
    ∧ (∀ bf, init_tracker .malformed bf = .error .malformed) :=
  ⟨rfl, fun _ => rfl⟩

/-- C10: the read operations — search, filter by category, filter by date
range, the generic filter, and summarize — return the tracker state they were
given: the record sequence, the budget map and both persisted files are
untouched, and no write occurs. -/
theorem read_ops_leave_state (s : TrackerState) (year month : Option Nat)
    (category payment_method : Option Str) (keyword : Str)
    (sd ed : Date) (c2 : Str) :
    (search_expenses_op s keyword).1 = s
    ∧ (filter_by_category_op s c2).1 = s
    ∧ (filter_by_date_range_op s sd ed).1 = s
    ∧ (filter_expenses_op s year month category payment_method).1 = s
    ∧ (get_summary_op s year month).1 = s :=
  ⟨rfl, rfl, rfl, rfl, rfl⟩

theorem alistFind_bumpKey_self (s : List (Str × ℤ)) (k : Str) (a : ℤ) :
    alistFind (bumpKey s k a) k = some ((alistFind s k).getD 0 + a) := by
  induction s with
  | nil => simp [bumpKey, alistFind]
  | cons p t ih =>
    obtain ⟨k1, v⟩ := p
    by_cases h : k1 = k
    · subst h; simp [bumpKey, alistFind]
    · simp [bumpKey, alistFind, h, ih]

theorem alistFind_bumpKey_ne (s : List (Str × ℤ)) (k : Str) (a : ℤ) (c : Str)
    (h : c ≠ k) : alistFind (bumpKey s k a) c = alistFind s c := by
  induction s with
  | nil => simp [bumpKey, alistFind, Ne.symm h]
  | cons p t ih =>
    obtain ⟨k1, v⟩ := p
    by_cases hk : k1 = k
    · subst hk; simp [bumpKey, alistFind, Ne.symm h]
    · by_cases hc : k1 = c <;> simp [bumpKey, alistFind, hk, hc, ih, h]

theorem catTotal_cons (e : Expense) (t : List Expense) (c : Str) :
    catTotal (e :: t) c =
      (if e.category = c then e.amount else 0) + catTotal t c := by
  by_cases h : e.category = c <;> simp [catTotal, List.filter_cons, h]

theorem foldl_bumpKey_find (fl : List Expense) (s : List (Str × ℤ)) (c : Str) :
    alistFind (fl.foldl (fun acc e => bumpKey acc e.category e.amount) s) c =
      (match alistFind s c with
       | some v => some (v + catTotal fl c)
       | none =>
         if c ∈ fl.map (fun e => e.category) then some (catTotal fl c)
         else none) := by
  induction fl generalizing s with
  | nil =>
    cases h : alistFind s c <;> simp [h, catTotal]
  | cons e t ih =>
    rw [List.foldl_cons, ih]
    by_cases hc : c = e.category
    · subst hc
      rw [alistFind_bumpKey_self]
      cases h : alistFind s e.category <;>
        simp [h, catTotal_cons, add_assoc]
    · rw [alistFind_bumpKey_ne _ _ _ _ hc]
      cases h : alistFind s c <;>
        simp [h, catTotal_cons, hc, Ne.symm hc, List.mem_cons]

/-- C3: the summary looks up, for each category, exactly the sum of the
amounts of the records passing `filter_expenses(year, month)` that bear that
category, and it has a key for exactly the categories appearing in that
filtered subsequence — no record double-counted, none omitted. -/
theorem get_summary_totals (es : List Expense) (year month : Option Nat)
    (c : Str) :
    alistFind (get_summary es year month) c =
      (if c ∈ (filter_expenses es year month none none).map
            (fun e => e.category)
       then some (catTotal (filter_expenses es year month none none) c)
       else none) := by
  rw [get_summary, foldl_bumpKey_find]
  simp [alistFind]

theorem strStarts_iff (needle : Str) :
    ∀ hay, strStarts hay needle = true ↔ ∃ t, hay = needle ++ t := by
  induction needle with
  | nil =>
    intro hay
    simp [strStarts]
  | cons b bs ih =>
    intro hay
    cases hay with
    | nil => simp [strStarts]
    | cons a as =>
      rw [strStarts]
      simp only [Bool.and_eq_true, beq_iff_eq, ih as, List.cons_append,
        List.cons.injEq]
      constructor
      · rintro ⟨rfl, t, rfl⟩
        exact ⟨t, rfl, rfl⟩
      · rintro ⟨t, rfl, rfl⟩
        exact ⟨rfl, t, rfl⟩

theorem strHas_iff (hay needle : Str) :
    strHas hay needle = true ↔ Occurs needle hay := by
  induction hay with
  | nil =>
    rw [strHas]
    constructor
    · intro h
      refine ⟨[], [], ?_⟩
      simp_all [List.isEmpty_iff]
    · rintro ⟨p, q, h⟩
      have hp : p = [] ∧ needle ++ q = [] := by
        simpa using h.symm
      have hn : needle = [] := by
        have h2 := hp.2
        exact (List.append_eq_nil.mp h2).1
      simp [hn]
  | cons a t ih =>
    rw [strHas]
    simp only [Bool.or_eq_true, strStarts_iff, ih]
    constructor
    · rintro (⟨s, hs⟩ | ⟨p, q, hpq⟩)
      · exact ⟨[], s, by simpa using hs⟩
      · exact ⟨a :: p, q, by simp [hpq]⟩
    · rintro ⟨p, q, hpq⟩
      cases p with
      | nil =>
        left
        exact ⟨q, by simpa using hpq⟩
      | cons x xs =>
        right
        have hx : a = x ∧ t = xs ++ needle ++ q := by
          simpa using hpq
        exact ⟨xs, q, hx.2⟩

theorem strHas_nil (hay : Str) : strHas hay [] = true := by
  cases hay <;> simp [strHas, strStarts]

/-- C8: `search_expenses` keeps a record exactly when the keyword occurs,
case-insensitively and as a contiguous substring, in its description or its
category; the result is a subsequence of the ledger with the multiplicity of
every matching record preserved; the empty keyword returns the whole ledger;
and the record with category `"Food"` is found by searching `"foo"`. -/
theorem search_substring_spec (es : List Expense) (k : Str) :
    (search_expenses es k).Sublist es
    ∧ (∀ e, e ∈ search_expenses es k ↔ e ∈ es ∧
        (Occurs (lowerStr k) (lowerStr e.description) ∨
         Occurs (lowerStr k) (lowerStr e.category)))
    ∧ (∀ e, (Occurs (lowerStr k) (lowerStr e.description) ∨
         Occurs (lowerStr k) (lowerStr e.category)) →
        (search_expenses es k).count e = es.count e)
    ∧ (∀ e, ¬ (Occurs (lowerStr k) (lowerStr e.description) ∨
         Occurs (lowerStr k) (lowerStr e.category)) →
        (search_expenses es k).count e = 0)
    ∧ search_expenses es [] = es
    ∧ foodExp ∈ search_expenses [foodExp] fooStr := by
  refine ⟨?_, ?_, ?_, ?_, ?_, ?_⟩
  · exact List.filter_sublist es
  · intro e
    simp [search_expenses, List.mem_filter, strHas_iff]
  · intro e he
    refine List.count_filter ?_
    rcases he with h | h
    · simp [(strHas_iff _ _).mpr h]
    · simp [(strHas_iff _ _).mpr h]
  · intro e he
    refine List.count_eq_zero.mpr ?_
    simp only [search_expenses, List.mem_filter, Bool.or_eq_true, strHas_iff]
    rintro ⟨-, h⟩
    exact he h
  · refine List.filter_eq_self.mpr ?_
    intro e _
    simp [lowerStr, strHas_nil]
  · decide

/-- C2 counterexample: the record with stored category `"Food"` differs from
the query `"food"` only in letter case and is selected by
`filter_by_category`, yet the category predicate of the generic
`filter_expenses` does NOT select it — that predicate compares categories
case-sensitively, so the claim is false at this input. -/
theorem category_case_cex :
    foodExp.category ≠ lowFood
    ∧ lowerStr foodExp.category = lowerStr lowFood
    ∧ foodExp ∈ filter_by_category [foodExp] lowFood
    ∧ foodExp ∉ filter_expenses [foodExp] none none (some lowFood) none := by
  decide

/-- C2 (amended): `filter_by_category` selects exactly the records whose
category equals the argument up to letter case, while the category predicate
of the generic `filter_expenses` (for a non-empty category argument) keeps
exactly the records whose stored category equals the argument
case-sensitively. -/
theorem category_match_case_rules (es : List Expense) (c : Str) (e : Expense)
    (hc : c ≠ []) :
    (e ∈ filter_by_category es c ↔
      e ∈ es ∧ lowerStr e.category = lowerStr c)
    ∧ filter_expenses es none none (some c) none =
        es.filter (fun x => decide (x.category = c)) := by
  constructor
  · simp [filter_by_category, List.mem_filter]
  · simp [filter_expenses, hc]

/-- Closed witness for C2 (amended), at the `"Food"` record and query
`"food"`. -/
theorem category_match_case_rules_w :
    (foodExp ∈ filter_by_category [foodExp] lowFood ↔
      foodExp ∈ [foodExp] ∧ lowerStr foodExp.category = lowerStr lowFood)
    ∧ filter_expenses [foodExp] none none (some lowFood) none =
        List.filter (fun x => decide (x.category = lowFood)) [foodExp] :=
  category_match_case_rules [foodExp] lowFood foodExp (by decide)

/-- C1 counterexample: with a ceiling of 10 on category `"A"`, a ledger
holding an October-2024 record of amount 10, current date 2025-10-05, and a
new October-2025 record of amount 5, the current-calendar-month sum the claim
prescribes (current year AND month, new record included) is 5, which does not
exceed 10 — yet `add_expense` fires the notification, because
`check_budget` filters by month only and also counts the 2024 record.  So the
claimed equivalence is false at this input. -/
theorem budget_claim_cex :
    (add_expense nowC1 stC1 newExp).2 = true
    ∧ claimMonthSum nowC1 (stC1.expenses ++ [newExp]) newExp.category = 5
    ∧ alistFind stC1.budgets newExp.category = some 10
    ∧ ¬ ((add_expense nowC1 stC1 newExp).2 = true ↔
        (10 : ℤ) < claimMonthSum nowC1 (stC1.expenses ++ [newExp])
          newExp.category) := by
  decide

/-- C1 (amended): when the added record's category has a configured ceiling
`C` (exact, case-sensitive key, non-empty) and the current month is a real
month, `add_expense` fires the budget notification iff the sum of amounts of
records whose stored category equals the record's category and whose date's
month equals the current month — in ANY year, not only the current one,
and including the record itself, inserted before the check — strictly
exceeds `C`; a sum equal to `C` does not fire. -/
theorem budget_alert_month_any_year (now : Date) (s : TrackerState)
    (e : Expense) (C : ℤ)
    (hb : alistFind s.budgets e.category = some C)
    (hm : now.month ≠ 0) (hc : e.category ≠ []) :
    ((add_expense now s e).2 = true ↔
      C < catTotal ((s.expenses ++ [e]).filter
        (fun x => decide (x.date.month = now.month))) e.category) := by
  have h1 : (add_expense now s e).2 =
      check_budget now (s.expenses ++ [e]) s.budgets e := rfl
  rw [h1]
  simp only [check_budget, hb]
  simp [filter_expenses, hm, hc, catTotal]

/-- Closed witness for C1 (amended): at the concrete scenario of the
counterexample, the month-of-any-year sum is 15 > 10 and the notification
indeed fires. -/
theorem budget_alert_month_any_year_w :
    ((add_expense nowC1 stC1 newExp).2 = true ↔
      (10 : ℤ) < catTotal ((stC1.expenses ++ [newExp]).filter
        (fun x => decide (x.date.month = nowC1.month))) newExp.category) :=
  budget_alert_month_any_year nowC1 stC1 newExp 10 (by decide) (by decide)
    (by decide)

/-- C4: for a current date with a real month and a `day_of_month` that exists
in the target month, `add_recurring_expense` appends one record, dated
`day_of_month` of the current month and year when `day_of_month` is at least
today's day of month, and otherwise `day_of_month` of the following month,
the year being incremented exactly when the current month is December; the
record carries the default payment method and currency. -/
theorem add_recurring_target (now : Date) (s : TrackerState) (a : ℤ)
    (c dsc : Str) (day : Nat)
    (hm1 : 1 ≤ now.month) (hm2 : now.month ≤ 12) (hd1 : 1 ≤ day)
    (hd2 : day ≤ daysInMonth (claimTarget now day).year
      (claimTarget now day).month) :
    add_recurring_expense now s a c dsc day =
      some (add_expense now s
        ⟨a, c, dsc, claimTarget now day, cashStr, inrStr⟩)
    ∧ (add_expense now s
        ⟨a, c, dsc, claimTarget now day, cashStr, inrStr⟩).1.expenses =
        s.expenses ++ [⟨a, c, dsc, claimTarget now day, cashStr, inrStr⟩] := by
  refine ⟨?_, rfl⟩
  by_cases h : now.day ≤ day
  · have ht : claimTarget now day = ⟨now.year, now.month, day⟩ := by
      simp [claimTarget, h]
    rw [ht] at hd2
    simp only [add_recurring_expense, if_pos h, mkValidDate, ht]
    rw [if_pos ⟨hm1, hm2, hd1, hd2⟩]
  · by_cases h12 : now.month = 12
    · have ht : claimTarget now day = ⟨now.year + 1, 1, day⟩ := by
        simp [claimTarget, h, h12]
      have hnm : now.month % 12 + 1 = 1 := by omega
      rw [ht] at hd2
      simp only [add_recurring_expense, if_neg h, hnm, if_pos rfl,
        mkValidDate, ht]
      rw [if_pos ⟨by omega, by omega, hd1, hd2⟩]
      simp
    · have ht : claimTarget now day = ⟨now.year, now.month + 1, day⟩ := by
        simp [claimTarget, h, h12]
      have hnm : now.month % 12 + 1 = now.month + 1 := by omega
      have hne : ¬ (now.month + 1 = 1) := by omega
      rw [ht] at hd2
      simp only [add_recurring_expense, if_neg h, hnm, if_neg hne,
        mkValidDate, ht]
      rw [if_pos ⟨by omega, by omega, hd1, hd2⟩]
      simp

/-- Closed witness for C4: on 2025-10-10, a recurring expense for day 5 lands
on the 5th of the following month. -/
theorem add_recurring_target_w :
    add_recurring_expense ⟨2025, 10, 10⟩ st0 100 fooStr fooStr 5 =
      some (add_expense ⟨2025, 10, 10⟩ st0
        ⟨100, fooStr, fooStr, claimTarget ⟨2025, 10, 10⟩ 5, cashStr, inrStr⟩)
    ∧ (add_expense ⟨2025, 10, 10⟩ st0
        ⟨100, fooStr, fooStr, claimTarget ⟨2025, 10, 10⟩ 5, cashStr,
          inrStr⟩).1.expenses =
        st0.expenses ++
          [⟨100, fooStr, fooStr, claimTarget ⟨2025, 10, 10⟩ 5, cashStr,
            inrStr⟩] :=
  add_recurring_target ⟨2025, 10, 10⟩ st0 100 fooStr fooStr 5 (by decide)
    (by decide) (by decide) (by decide)
